import Mathlib

/-!
Verification of the category resolution and continuous-learning engine of the
vodcms repository, as a shallow embedding of the Go source.

Conventions of the embedding:
* Database tables (`mapping_rules`, `fuzzy_match_rules`, `unmapped_categories`)
  are lists of rows; auto-increment primary keys are modelled with an explicit
  `next…Id` counter in the `DB` state.
* The query `Where(...).Order("priority ASC").First(&rule)` is modelled by
  taking the minimum row of the filtered table under the lexicographic order
  (priority, id): GORM's `First` appends an `ORDER BY <primary key>` clause
  after any caller-supplied order, so ties in `priority` are broken by the
  smallest `id`.
* The query `Where("is_active = ?", true).Order("priority ASC").Find(&fuzzyRule)`
  with a struct destination scans only the first row of the ordered result and
  reports NO error when the result set is empty, leaving the destination at the
  Go zero value.  This is modelled by `findFirstFuzzy`, which falls back to
  `zeroFuzzyRule`.
* `Updates` with a struct argument writes only the non-zero fields of the
  struct (GORM semantics); `Updates` with a map writes every listed column.
* Timestamps are modelled as natural numbers; `time.Now()` (and gorm's
  `autoUpdateTime` on `last_seen_at`) is an explicit `now` parameter.
* Go string operations work on bytes; since UTF-8 is self-synchronizing,
  byte-level substring containment of valid strings coincides with the
  character-level containment used here.  `strings.ToLower` / `TrimSpace` are
  modelled on ASCII letters / ASCII whitespace, which covers every keyword
  appearing in the embedded tables.
-/

/-- Row of the `mapping_rules` table (models/category_mapping.go, `MappingRule`).
Timestamp columns are omitted: no modelled operation reads them. -/
structure MappingRule where
  id : Nat
  sourceKey : String
  sourceTypeID : Int
  sourceName : String
  standardID : Int
  standardSubID : Option Int
  priority : Int
  matchType : String
  isActive : Bool
deriving DecidableEq

/-- Row of the `fuzzy_match_rules` table (`FuzzyMatchRule`). -/
structure FuzzyMatchRule where
  id : Nat
  pattern : String
  keywords : String
  standardID : Int
  standardSubID : Option Int
  priority : Int
  isActive : Bool
deriving DecidableEq

/-- Row of the `unmapped_categories` table (`UnmappedCategory`). -/
structure UnmappedCategory where
  id : Nat
  sourceKey : String
  sourceTypeID : Int
  sourceName : String
  firstSeenAt : Nat
  lastSeenAt : Nat
  videoCount : Nat
  status : String
  suggestedID : Option Int
  suggestedSubID : Option Int
  mappedID : Option Int
  mappedSubID : Option Int
  notes : String
deriving DecidableEq

/-- The mutable database state shared by the service and the admin handlers. -/
structure DB where
  rules : List MappingRule
  fuzzyRules : List FuzzyMatchRule
  unmapped : List UnmappedCategory
  nextRuleId : Nat
  nextUnmappedId : Nat
deriving DecidableEq

/-- One entry of a source's mapping list in the JSON configuration
(`CategoryMapping`). -/
structure CategoryMapping where
  sourceTypeID : Int
  sourceName : String
  standardID : Int
  standardSubID : Option Int
deriving DecidableEq

/-- A standard category of the JSON configuration (`StandardCategory`);
`subcategories` is a map keyed by the decimal string of the sub id. -/
structure StandardCategory where
  name : String
  subcategories : List (String × String)
deriving DecidableEq

/-- A source's block in the JSON configuration (`SourceCategoryMapping`). -/
structure SourceCategoryMapping where
  name : String
  mappings : List CategoryMapping
deriving DecidableEq

/-- The loaded JSON configuration (`CategoryMappingConfig`); both maps are
modelled as association lists with string keys, exactly as in the file. -/
structure CategoryMappingConfig where
  standardCategories : List (String × StandardCategory)
  sourceMappings : List (String × SourceCategoryMapping)
deriving DecidableEq

/-- Selects the minimum of a list under the strict comparison `lt`, starting
from an optional accumulator.  Models `ORDER BY … LIMIT 1` row selection. -/
def pickMin {α : Type} (lt : α → α → Bool) : Option α → List α → Option α
  | acc, [] => acc
  | none, x :: xs => pickMin lt (some x) xs
  | some a, x :: xs => pickMin lt (some (if lt x a then x else a)) xs

/-- Strict (priority, id) order on mapping rules: the SQL
`ORDER BY priority ASC, id` produced by `Order("priority ASC").First`. -/
def ruleLt (a b : MappingRule) : Bool :=
  decide (a.priority < b.priority) || (decide (a.priority = b.priority) && decide (a.id < b.id))

/-- Strict (priority, id) order on fuzzy rules (same query shape). -/
def fuzzyLt (a b : FuzzyMatchRule) : Bool :=
  decide (a.priority < b.priority) || (decide (a.priority = b.priority) && decide (a.id < b.id))

/-- Strict id order on unmapped records: plain `First` orders by primary key. -/
def unmappedLt (a b : UnmappedCategory) : Bool :=
  decide (a.id < b.id)

/-- `Where("source_key = ? AND source_type_id = ? AND is_active = ?", key, code,
true).Order("priority ASC").First(&rule)` in `MapCategoryEnhanced`. -/
def findExactRule (rules : List MappingRule) (sourceKey : String) (sourceTypeID : Int) :
    Option MappingRule :=
  pickMin ruleLt none
    (rules.filter fun r => r.sourceKey == sourceKey && r.sourceTypeID == sourceTypeID && r.isActive)

/-- Go zero value of `models.FuzzyMatchRule`: the destination of a `Find` that
matched no rows is left untouched. -/
def zeroFuzzyRule : FuzzyMatchRule :=
  { id := 0, pattern := "", keywords := "", standardID := 0, standardSubID := none,
    priority := 0, isActive := false }

/-- `Where("is_active = ?", true).Order("priority ASC").Find(&fuzzyRule)`: only
the first row of the ordered result reaches the struct destination; an empty
result leaves the Go zero value and reports no error. -/
def findFirstFuzzy (rules : List FuzzyMatchRule) : FuzzyMatchRule :=
  (pickMin fuzzyLt none (rules.filter fun r => r.isActive)).getD zeroFuzzyRule

/-- `Where("source_key = ? AND source_type_id = ?", …).First(&unmapped)` in
`recordUnmappedCategory`: minimum id among the matching rows. -/
def findUnmappedFirst (l : List UnmappedCategory) (sourceKey : String) (sourceTypeID : Int) :
    Option UnmappedCategory :=
  pickMin unmappedLt none
    (l.filter fun u => u.sourceKey == sourceKey && u.sourceTypeID == sourceTypeID)

/-- `First(&unmapped, unmappedID)`: lookup by primary key. -/
def findUnmappedById (l : List UnmappedCategory) (uid : Nat) : Option UnmappedCategory :=
  l.find? fun u => u.id == uid

/-- Byte-scan substring containment over character lists: at each position,
test whether `sub` is a prefix of the remaining haystack. -/
def charsContains (hay sub : List Char) : Bool :=
  match hay with
  | [] => sub.isEmpty
  | _ :: t => sub.isPrefixOf hay || charsContains t sub

/-- `strings.Contains(s, sub)` — in particular `Contains(s, "") = true`. -/
def goContains (s sub : String) : Bool :=
  charsContains s.data sub.data

/-- `strings.TrimSpace` (modelled on ASCII whitespace). -/
def goTrim (s : String) : String :=
  ⟨((s.data.dropWhile Char.isWhitespace).reverse.dropWhile Char.isWhitespace).reverse⟩

/-- `strings.ToLower` (modelled on ASCII letters, which covers every keyword
in the embedded heuristic tables). -/
def goToLower (s : String) : String :=
  ⟨s.data.map Char.toLower⟩

/-- Lookup of `config.StandardCategories[fmt.Sprintf("%d", standardID)]`. -/
def stdCatLookupC (c : CategoryMappingConfig) (standardID : Int) : Option StandardCategory :=
  (c.standardCategories.find? fun e => e.1 == toString standardID).map (·.2)

/-- Same lookup through the service's optional config pointer. -/
def stdCatLookup (cfg : Option CategoryMappingConfig) (standardID : Int) :
    Option StandardCategory :=
  match cfg with
  | none => none
  | some c => stdCatLookupC c standardID

/-- Lookup of `stdCat.Subcategories[fmt.Sprintf("%d", subID)]`. -/
def subCatLookup (stdCat : StandardCategory) (subID : Int) : Option String :=
  (stdCat.subcategories.find? fun e => e.1 == toString subID).map (·.2)

/-- `getStandardCategoryNames`: resolves (standard name, sub name) from the
JSON configuration, returning empty strings for unknown ids or a nil config. -/
def getStandardCategoryNames (cfg : Option CategoryMappingConfig) (standardID : Int)
    (standardSubID : Option Int) : String × String :=
  match stdCatLookup cfg standardID with
  | none => ("", "")
  | some stdCat =>
    (stdCat.name,
     match standardSubID with
     | none => ""
     | some sid => (subCatLookup stdCat sid).getD "")

/-- Body of the match-found branches of `MapCategory`: the named return values
start at the defaults (99, nil, "其他", ""), so when the mapped standard id is
absent from `StandardCategories` the leftover default name "其他" is returned,
and a missing sub name leaves "". -/
def mapCategoryHit (c : CategoryMappingConfig) (m : CategoryMapping) :
    Int × Option Int × String × String :=
  match stdCatLookupC c m.standardID with
  | some stdCat =>
    (m.standardID, m.standardSubID, stdCat.name,
     match m.standardSubID with
     | none => ""
     | some sid => (subCatLookup stdCat sid).getD "")
  | none => (m.standardID, m.standardSubID, "其他", "")

/-- `MapCategory`: legacy JSON-config lookup.  Defaults to (99, nil, "其他", "");
first scans the source's mapping list by source type id, then by source name. -/
def mapCategory (cfg : Option CategoryMappingConfig) (sourceKey : String) (sourceTypeID : Int)
    (sourceTypeName : String) : Int × Option Int × String × String :=
  match cfg with
  | none => (99, none, "其他", "")
  | some c =>
    match (c.sourceMappings.find? fun e => e.1 == sourceKey).map (·.2) with
    | none => (99, none, "其他", "")
    | some sm =>
      match sm.mappings.find? fun m => m.sourceTypeID == sourceTypeID with
      | some m => mapCategoryHit c m
      | none =>
        match sm.mappings.find? fun m => m.sourceName == sourceTypeName with
        | some m => mapCategoryHit c m
        | none => (99, none, "其他", "")

/-- `recordUnmappedCategory`: creates a fresh pending record with count 1, or
updates the existing record — count + 1, last-seen refreshed, suggestion fields
overwritten only when a suggestion is supplied.  The source performs NO status
check: the update applies to mapped/ignored records as well. -/
def recordUnmappedCategory (d : DB) (now : Nat) (sourceKey : String) (sourceTypeID : Int)
    (sourceTypeName : String) (suggestedID : Option Int) (suggestedSubID : Option Int) : DB :=
  match findUnmappedFirst d.unmapped sourceKey sourceTypeID with
  | none =>
    { d with
      unmapped := d.unmapped ++
        [{ id := d.nextUnmappedId, sourceKey := sourceKey, sourceTypeID := sourceTypeID,
           sourceName := sourceTypeName, firstSeenAt := now, lastSeenAt := now,
           videoCount := 1, status := "pending", suggestedID := suggestedID,
           suggestedSubID := suggestedSubID, mappedID := none, mappedSubID := none,
           notes := "" }],
      nextUnmappedId := d.nextUnmappedId + 1 }
  | some u =>
    { d with
      unmapped := d.unmapped.map fun v =>
        if v.id == u.id then
          if suggestedID.isSome then
            { v with lastSeenAt := now, videoCount := v.videoCount + 1, suggestedID := suggestedID, suggestedSubID := suggestedSubID }
          else
            { v with lastSeenAt := now, videoCount := v.videoCount + 1 }
        else v }

/-- Splits a character list at every '|' (separator dropped), keeping empty
segments, with `acc` holding the current segment reversed. -/
def splitPipeChars : List Char → List Char → List (List Char)
  | [], acc => [acc.reverse]
  | c :: rest, acc =>
    if c = '|' then acc.reverse :: splitPipeChars rest []
    else splitPipeChars rest (c :: acc)

/-- `strings.Split(s, "|")`: in particular `Split("", "|") = [""]`. -/
def goSplitPipe (s : String) : List String :=
  (splitPipeChars s.data []).map fun l => ⟨l⟩

/-- Token scan of the fuzzy branch: `strings.Split(pattern, "|")` then the
first keyword with `strings.Contains(sourceTypeName, keyword)`. -/
def fuzzyHit (pattern : String) (sourceTypeName : String) : Option String :=
  (goSplitPipe pattern).find? fun keyword => goContains sourceTypeName keyword

/-- The fuzzy-match step of `MapCategoryEnhanced` in isolation: only the single
first active fuzzy rule (ascending priority) is consulted; it classifies iff
one of its tokens is a (case-sensitive) substring of the display name. -/
def fuzzyStep (rules : List FuzzyMatchRule) (sourceTypeName : String) : Option FuzzyMatchRule :=
  if (fuzzyHit (findFirstFuzzy rules).pattern sourceTypeName).isSome then
    some (findFirstFuzzy rules)
  else none

/-- Steps 2–4 of `MapCategoryEnhanced`: legacy JSON lookup, fuzzy match,
default.  The Go named return values persist across steps, so the final
default keeps the sub id / sub name left by `MapCategory` while overwriting
the standard id and name. -/
def resolveAfterExact (cfg : Option CategoryMappingConfig) (db : Option DB) (now : Nat)
    (sourceKey : String) (sourceTypeID : Int) (sourceTypeName : String) :
    (Int × Option Int × String × String) × Option DB :=
  let res := mapCategory cfg sourceKey sourceTypeID sourceTypeName
  if res.1 ≠ 99 then (res, db)
  else
    match db with
    | some d =>
      if sourceTypeName ≠ "" then
        let fr := findFirstFuzzy d.fuzzyRules
        match fuzzyHit fr.pattern sourceTypeName with
        | some _ =>
          ((fr.standardID, fr.standardSubID,
            (getStandardCategoryNames cfg fr.standardID fr.standardSubID).1,
            (getStandardCategoryNames cfg fr.standardID fr.standardSubID).2),
           some (recordUnmappedCategory d now sourceKey sourceTypeID sourceTypeName
             (some fr.standardID) fr.standardSubID))
        | none =>
          ((99, res.2.1, "其他", res.2.2.2),
           some (recordUnmappedCategory d now sourceKey sourceTypeID sourceTypeName none none))
      else
        ((99, res.2.1, "其他", res.2.2.2),
         some (recordUnmappedCategory d now sourceKey sourceTypeID sourceTypeName none none))
    | none => ((99, res.2.1, "其他", res.2.2.2), none)

/-- `MapCategoryEnhanced`: exact database rule, then legacy config, then fuzzy
match, then default.  Returns the classification together with the database
state after any discovery write. -/
def mapCategoryEnhanced (cfg : Option CategoryMappingConfig) (db : Option DB) (now : Nat)
    (sourceKey : String) (sourceTypeID : Int) (sourceTypeName : String) :
    (Int × Option Int × String × String) × Option DB :=
  match db with
  | some d =>
    match findExactRule d.rules sourceKey sourceTypeID with
    | some rule =>
      ((rule.standardID, rule.standardSubID,
        (getStandardCategoryNames cfg rule.standardID rule.standardSubID).1,
        (getStandardCategoryNames cfg rule.standardID rule.standardSubID).2),
       some d)
    | none => resolveAfterExact cfg (some d) now sourceKey sourceTypeID sourceTypeName
  | none => resolveAfterExact cfg none now sourceKey sourceTypeID sourceTypeName

/-- GORM `Updates` with a struct argument: only non-zero fields of the update
struct are written; the primary key of the updated row is preserved. -/
def goUpdatesRule (old upd : MappingRule) : MappingRule :=
  { id := old.id
    sourceKey := if upd.sourceKey ≠ "" then upd.sourceKey else old.sourceKey
    sourceTypeID := if upd.sourceTypeID ≠ 0 then upd.sourceTypeID else old.sourceTypeID
    sourceName := if upd.sourceName ≠ "" then upd.sourceName else old.sourceName
    standardID := if upd.standardID ≠ 0 then upd.standardID else old.standardID
    standardSubID := if upd.standardSubID.isSome then upd.standardSubID else old.standardSubID
    priority := if upd.priority ≠ 0 then upd.priority else old.priority
    matchType := if upd.matchType ≠ "" then upd.matchType else old.matchType
    isActive := if upd.isActive then upd.isActive else old.isActive }

/-- Strict id order on mapping rules: `First(&existing)` with no caller-given
order produces `ORDER BY id LIMIT 1`. -/
def ruleIdLt (a b : MappingRule) : Bool :=
  decide (a.id < b.id)

/-- `AddMappingRule` (service): upsert keyed by (source_key, source_type_id)
with no `is_active` filter — updates the smallest-id existing row via struct
`Updates`, or inserts a fresh row. -/
def addMappingRule (d : DB) (rule : MappingRule) : DB :=
  match pickMin ruleIdLt none
      (d.rules.filter fun r =>
        r.sourceKey == rule.sourceKey && r.sourceTypeID == rule.sourceTypeID) with
  | none =>
    { d with rules := d.rules ++ [{ rule with id := d.nextRuleId }], nextRuleId := d.nextRuleId + 1 }
  | some existing =>
    { d with rules := d.rules.map fun r =>
        if r.id == existing.id then goUpdatesRule r rule else r }

/-- Plain `db.Create(&rule)` as used by the batch handler: fails on the unique
index over (source_key, source_type_id), otherwise appends a fresh row. -/
def createRule (d : DB) (rule : MappingRule) : Option DB :=
  if d.rules.any (fun r => r.sourceKey == rule.sourceKey && r.sourceTypeID == rule.sourceTypeID)
  then none
  else some { d with rules := d.rules ++ [{ rule with id := d.nextRuleId }], nextRuleId := d.nextRuleId + 1 }

/-- The exact rule built by the promote paths from a discovery record and a
target: priority 100, match type "exact", active. -/
def promoteRule (u : UnmappedCategory) (standardID : Int) (standardSubID : Option Int) :
    MappingRule :=
  { id := 0, sourceKey := u.sourceKey, sourceTypeID := u.sourceTypeID,
    sourceName := u.sourceName, standardID := standardID, standardSubID := standardSubID,
    priority := 100, matchType := "exact", isActive := true }

/-- Map-style `Updates` setting status/mapped target on the record with the
given primary key; `last_seen_at` carries gorm's `autoUpdateTime`. -/
def updateUnmappedMapped (d : DB) (now : Nat) (uid : Nat) (standardID : Int)
    (standardSubID : Option Int) : DB :=
  { d with unmapped := d.unmapped.map fun u =>
      if u.id == uid then
        { u with status := "mapped", mappedID := some standardID, mappedSubID := standardSubID, lastSeenAt := now }
      else u }

/-- `ApplyUnmappedCategoryMapping` (service): looks up the discovery record,
upserts an exact rule via `AddMappingRule`, then updates the record's status as
a SEPARATE write — there is no transaction in the source, every call commits
individually.  `statusUpdateFails` injects a storage failure of the final
status update; the already-committed rule write is then not rolled back. -/
def applyUnmappedCategoryMapping (d : DB) (now : Nat) (statusUpdateFails : Bool)
    (unmappedID : Nat) (standardID : Int) (standardSubID : Option Int) : Option String × DB :=
  match findUnmappedById d.unmapped unmappedID with
  | none => (some "record not found", d)
  | some u =>
    let d1 := addMappingRule d (promoteRule u standardID standardSubID)
    if statusUpdateFails then (some "更新状态失败", d1)
    else (none, updateUnmappedMapped d1 now u.id standardID standardSubID)

/-- One item of the batch-apply request body. -/
structure BatchMappingItem where
  unmappedID : Nat
  standardID : Int
  standardSubID : Option Int
deriving DecidableEq

/-- Accumulated outcome of `BatchApplyUnmappedCategories`. -/
structure BatchApplyResult where
  successCount : Nat
  failCount : Nat
  errors : List String
deriving DecidableEq

/-- One iteration of the loop in `BatchApplyUnmappedCategories`: a missing
record or a failed `Create` increments the failure count with a per-item error
message and continues; a successful item creates the rule (plain `Create`, no
upsert) and marks the record mapped. -/
def batchApplyStep (now : Nat) (acc : BatchApplyResult × DB) (item : BatchMappingItem) :
    BatchApplyResult × DB :=
  match findUnmappedById acc.2.unmapped item.unmappedID with
  | none =>
    ({ acc.1 with failCount := acc.1.failCount + 1, errors := acc.1.errors ++ ["未映射分类ID " ++ toString item.unmappedID ++ " 不存在"] },
     acc.2)
  | some u =>
    match createRule acc.2 (promoteRule u item.standardID item.standardSubID) with
    | none =>
      ({ acc.1 with failCount := acc.1.failCount + 1, errors := acc.1.errors ++ ["创建规则失败: UNIQUE constraint failed"] },
       acc.2)
    | some d1 =>
      ({ acc.1 with successCount := acc.1.successCount + 1 },
       updateUnmappedMapped d1 now u.id item.standardID item.standardSubID)

/-- `BatchApplyUnmappedCategories` (admin handler): sequential fold over the
items, per-item failure isolation, no rollback across items. -/
def batchApplyUnmappedCategories (d : DB) (now : Nat) (items : List BatchMappingItem) :
    BatchApplyResult × DB :=
  items.foldl (batchApplyStep now) (⟨0, 0, []⟩, d)

/-- Result of the suggestion heuristic (`MappingSuggestion` in the discovery
handler). -/
structure MappingSuggestion where
  standardID : Option Int
  standardSubID : Option Int
  standardName : String
  standardSubName : String
  confidence : String
deriving DecidableEq

/-- The exact-name dictionary of `suggestMapping` (`highConfidenceRules`),
transcribed entry for entry; a Go map literal with distinct keys, modelled as
an association list.  Omitted struct fields are the Go zero value "". -/
def highConfidenceRules : List (String × MappingSuggestion) :=
  [("电影", ⟨some 1, none, "电影", "", "high"⟩),
   ("电影片", ⟨some 1, none, "电影", "", "high"⟩),
   ("动作片", ⟨some 1, some 101, "电影", "动作片", "high"⟩),
   ("喜剧片", ⟨some 1, some 102, "电影", "喜剧片", "high"⟩),
   ("爱情片", ⟨some 1, some 103, "电影", "爱情片", "high"⟩),
   ("科幻片", ⟨some 1, some 104, "电影", "科幻片", "high"⟩),
   ("恐怖片", ⟨some 1, some 105, "电影", "恐怖片", "high"⟩),
   ("剧情片", ⟨some 1, some 106, "电影", "剧情片", "high"⟩),
   ("战争片", ⟨some 1, some 107, "电影", "战争片", "high"⟩),
   ("悬疑片", ⟨some 1, some 108, "电影", "悬疑片", "high"⟩),
   ("犯罪片", ⟨some 1, some 109, "电影", "犯罪片", "high"⟩),
   ("奇幻片", ⟨some 1, some 110, "电影", "奇幻片", "high"⟩),
   ("灾难片", ⟨some 1, some 111, "电影", "灾难片", "high"⟩),
   ("伦理片", ⟨some 1, some 112, "电影", "伦理片", "high"⟩),
   ("伦理", ⟨some 1, some 112, "电影", "伦理片", "high"⟩),
   ("4k电影", ⟨some 1, some 113, "电影", "4K电影", "high"⟩),
   ("电视剧", ⟨some 2, none, "电视剧", "", "high"⟩),
   ("连续剧", ⟨some 2, none, "电视剧", "", "high"⟩),
   ("国产剧", ⟨some 2, some 201, "电视剧", "国产剧", "high"⟩),
   ("大陆剧", ⟨some 2, some 201, "电视剧", "国产剧", "high"⟩),
   ("内地剧", ⟨some 2, some 201, "电视剧", "国产剧", "high"⟩),
   ("港澳剧", ⟨some 2, some 202, "电视剧", "港澳剧", "high"⟩),
   ("香港剧", ⟨some 2, some 202, "电视剧", "港澳剧", "high"⟩),
   ("港剧", ⟨some 2, some 202, "电视剧", "港澳剧", "high"⟩),
   ("台湾剧", ⟨some 2, some 203, "电视剧", "台湾剧", "high"⟩),
   ("台剧", ⟨some 2, some 203, "电视剧", "台湾剧", "high"⟩),
   ("欧美剧", ⟨some 2, some 204, "电视剧", "欧美剧", "high"⟩),
   ("美剧", ⟨some 2, some 204, "电视剧", "欧美剧", "high"⟩),
   ("韩剧", ⟨some 2, some 205, "电视剧", "韩剧", "high"⟩),
   ("韩国剧", ⟨some 2, some 205, "电视剧", "韩剧", "high"⟩),
   ("日剧", ⟨some 2, some 206, "电视剧", "日剧", "high"⟩),
   ("日本剧", ⟨some 2, some 206, "电视剧", "日剧", "high"⟩),
   ("泰剧", ⟨some 2, some 207, "电视剧", "泰剧", "high"⟩),
   ("马泰剧", ⟨some 2, some 207, "电视剧", "泰剧", "high"⟩),
   ("海外剧", ⟨some 2, some 208, "电视剧", "海外剧", "high"⟩),
   ("综艺", ⟨some 3, none, "综艺", "", "high"⟩),
   ("大陆综艺", ⟨some 3, some 301, "综艺", "大陆综艺", "high"⟩),
   ("港台综艺", ⟨some 3, some 302, "综艺", "港台综艺", "high"⟩),
   ("日韩综艺", ⟨some 3, some 303, "综艺", "日韩综艺", "high"⟩),
   ("欧美综艺", ⟨some 3, some 304, "综艺", "欧美综艺", "high"⟩),
   ("动漫", ⟨some 4, none, "动漫", "", "high"⟩),
   ("动画", ⟨some 4, none, "动漫", "", "high"⟩),
   ("国产动漫", ⟨some 4, some 401, "动漫", "国产动漫", "high"⟩),
   ("中国动漫", ⟨some 4, some 401, "动漫", "国产动漫", "high"⟩),
   ("日韩动漫", ⟨some 4, some 402, "动漫", "日韩动漫", "high"⟩),
   ("日本动漫", ⟨some 4, some 402, "动漫", "日韩动漫", "high"⟩),
   ("欧美动漫", ⟨some 4, some 403, "动漫", "欧美动漫", "high"⟩),
   ("港台动漫", ⟨some 4, some 404, "动漫", "港台动漫", "high"⟩),
   ("动画片", ⟨some 4, some 405, "动漫", "动画片", "high"⟩),
   ("动漫电影", ⟨some 4, none, "动漫", "", "high"⟩),
   ("纪录片", ⟨some 5, none, "纪录片", "", "high"⟩),
   ("记录片", ⟨some 5, none, "纪录片", "", "high"⟩),
   ("短剧", ⟨some 6, none, "短剧", "", "high"⟩),
   ("爽文短剧", ⟨some 6, some 601, "短剧", "爽文短剧", "high"⟩),
   ("女频恋爱", ⟨some 6, some 602, "短剧", "女频恋爱", "high"⟩),
   ("反转爽剧", ⟨some 6, some 603, "短剧", "反转爽剧", "high"⟩),
   ("古装仙侠", ⟨some 6, some 604, "短剧", "古装仙侠", "high"⟩),
   ("年代穿越", ⟨some 6, some 605, "短剧", "年代穿越", "high"⟩),
   ("脑洞悬疑", ⟨some 6, some 606, "短剧", "脑洞悬疑", "high"⟩),
   ("现代都市", ⟨some 6, some 607, "短剧", "现代都市", "high"⟩)]

/-- The keyword-containment table of `suggestMapping`
(`mediumConfidenceRules`), in source order. -/
def mediumConfidenceRules : List (List String × MappingSuggestion) :=
  [(["动作", "武侠", "功夫"], ⟨some 1, some 101, "电影", "动作片", "medium"⟩),
   (["喜剧", "搞笑", "comedy"], ⟨some 1, some 102, "电影", "喜剧片", "medium"⟩),
   (["爱情", "浪漫", "言情"], ⟨some 1, some 103, "电影", "爱情片", "medium"⟩),
   (["科幻", "魔幻", "sci-fi"], ⟨some 1, some 104, "电影", "科幻片", "medium"⟩),
   (["恐怖", "惊悚", "鬼片", "horror"], ⟨some 1, some 105, "电影", "恐怖片", "medium"⟩),
   (["剧情", "文艺", "drama"], ⟨some 1, some 106, "电影", "剧情片", "medium"⟩),
   (["战争", "军事"], ⟨some 1, some 107, "电影", "战争片", "medium"⟩),
   (["悬疑", "推理", "mystery"], ⟨some 1, some 108, "电影", "悬疑片", "medium"⟩),
   (["movie", "film"], ⟨some 1, none, "电影", "", "medium"⟩),
   (["国产", "大陆", "内地", "chinese"], ⟨some 2, some 201, "电视剧", "国产剧", "medium"⟩),
   (["香港", "hk", "tvb"], ⟨some 2, some 202, "电视剧", "港澳剧", "medium"⟩),
   (["韩国", "korea", "korean"], ⟨some 2, some 205, "电视剧", "韩剧", "medium"⟩),
   (["日本", "japan", "japanese"], ⟨some 2, some 206, "电视剧", "日剧", "medium"⟩),
   (["欧美", "美国", "英国", "american", "usa"], ⟨some 2, some 204, "电视剧", "欧美剧", "medium"⟩),
   (["tv", "series", "剧集"], ⟨some 2, none, "电视剧", "", "medium"⟩),
   (["综艺", "真人秀", "variety"], ⟨some 3, none, "综艺", "", "medium"⟩),
   (["动漫", "动画", "anime", "cartoon"], ⟨some 4, none, "动漫", "", "medium"⟩),
   (["纪录", "记录", "documentary"], ⟨some 5, none, "纪录片", "", "medium"⟩),
   (["短剧", "微电影", "微剧"], ⟨some 6, none, "短剧", "", "medium"⟩)]

/-- The low-confidence fallback of `suggestMapping`: the uncategorized bucket. -/
def lowConfidenceFallback : MappingSuggestion :=
  ⟨some 99, none, "其他", "", "low"⟩

/-- `suggestMapping` (discovery handler): trims the name, looks it up in the
exact-name dictionary, otherwise scans the keyword table against the
lowercased name, otherwise falls back to the uncategorized bucket.  The Go
method reads nothing from its receiver: it is a pure function of the name. -/
def suggestMapping (typeName : String) : MappingSuggestion :=
  let trimmed := goTrim typeName
  let lowerName := goToLower trimmed
  match (highConfidenceRules.find? fun e => e.1 == trimmed).map (·.2) with
  | some s => s
  | none =>
    match (mediumConfidenceRules.find? fun rule =>
        rule.1.any fun keyword => goContains lowerName keyword).map (·.2) with
    | some s => s
    | none => lowConfidenceFallback

/-- Two active fuzzy rules for the C2 scenario: a first (lowest priority
value) rule whose tokens do not occur in the English names used below… -/
def ruleHorrorC2 : FuzzyMatchRule :=
  ⟨1, "恐怖", "", 1, some 105, 100, true⟩

/-- A second active rule, of higher priority value, whose token "action" does
occur in the English names below. -/
def ruleActionC2 : FuzzyMatchRule :=
  ⟨2, "action|wuxia", "", 1, some 101, 200, true⟩

/-- Database state holding both fuzzy rules and nothing else. -/
def dbC2 : DB := ⟨[], [ruleHorrorC2, ruleActionC2], [], 1, 1⟩

/-- A pending discovery record (source "xlzy", code 17) used by the Promote
scenarios. -/
def unmappedC4 : UnmappedCategory :=
  ⟨1, "xlzy", 17, "韩剧", 5, 5, 3, "pending", none, none, none, none, ""⟩

/-- Database state with only that pending record. -/
def dbC4 : DB := ⟨[], [], [unmappedC4], 1, 2⟩

/-- A discovery record already resolved (status "mapped") for the Observe
no-op scenario. -/
def unmappedC5 : UnmappedCategory :=
  ⟨1, "k", 5, "n", 10, 10, 3, "mapped", none, none, some 2, some 205, ""⟩

/-- Database state with only that mapped record. -/
def dbC5 : DB := ⟨[], [], [unmappedC5], 1, 2⟩

/-- Taxonomy configuration knowing standard category 2 ("电视剧") with sub
category 205 ("韩剧"). -/
def cfgC6 : CategoryMappingConfig :=
  ⟨[("2", ⟨"电视剧", [("205", "韩剧")]⟩)], []⟩

/-- Pending record (xlzy, 17) to be promoted to (2, 205). -/
def unmappedC6 : UnmappedCategory :=
  ⟨1, "xlzy", 17, "韩剧", 5, 5, 12, "pending", none, none, none, none, ""⟩

/-- Database state with only that pending record. -/
def dbC6 : DB := ⟨[], [], [unmappedC6], 1, 2⟩

/-- First of two valid records in the batch scenario. -/
def unmappedC7a : UnmappedCategory :=
  ⟨1, "hhzy", 3, "动作", 4, 4, 9, "pending", none, none, none, none, ""⟩

/-- Second valid record in the batch scenario. -/
def unmappedC7b : UnmappedCategory :=
  ⟨2, "snzy", 8, "韩剧", 4, 4, 7, "pending", none, none, none, none, ""⟩

/-- Database state for the batch scenario. -/
def dbC7 : DB := ⟨[], [], [unmappedC7a, unmappedC7b], 1, 3⟩

/-- Three batch items; the middle one names the non-existent record id 999. -/
def itemsC7 : List BatchMappingItem :=
  [⟨1, 1, some 101⟩, ⟨999, 2, some 205⟩, ⟨2, 2, some 205⟩]

/-- Configuration whose source "src" maps code 7 to the standard id 42 that is
absent from the taxonomy table. -/
def cfgC9 : CategoryMappingConfig :=
  ⟨[("1", ⟨"电影", []⟩)], [("src", ⟨"源", [⟨7, "未知类", 42, none⟩]⟩)]⟩

/-- Exact rule used to witness the exact-rule claims. -/
def ruleW1 : MappingRule := ⟨1, "k", 5, "", 7, none, 100, "exact", true⟩

/-- Database state holding only `ruleW1`. -/
def dbW1 : DB := ⟨[ruleW1], [], [], 2, 1⟩

/-- Higher-priority-value duplicate for the tie-break witness. -/
def ruleW3a : MappingRule := ⟨1, "k", 5, "", 7, none, 100, "exact", true⟩

/-- Lower-priority-value duplicate that must win the tie-break. -/
def ruleW3b : MappingRule := ⟨2, "k", 5, "", 8, some 201, 50, "exact", true⟩

/-- Database state holding both duplicates. -/
def dbW3 : DB := ⟨[ruleW3a, ruleW3b], [], [], 3, 1⟩

/-- Lexicographic (priority, id) precedence used to state the tie-break. -/
def rulePrec (r x : MappingRule) : Prop :=
  r.priority < x.priority ∨ (r.priority = x.priority ∧ r.id ≤ x.id)

theorem ruleLt_iff (a b : MappingRule) :
    ruleLt a b = true ↔ (a.priority < b.priority ∨ (a.priority = b.priority ∧ a.id < b.id)) := by
  simp [ruleLt]

theorem pickMin_some_isSome {α : Type} (lt : α → α → Bool) :
    ∀ (l : List α) (a : α), (pickMin lt (some a) l).isSome = true := by
  intro l
  induction l with
  | nil => intro a; rfl
  | cons x xs ih => intro a; simpa [pickMin] using ih _

theorem pickMin_ne_nil_isSome {α : Type} (lt : α → α → Bool) (l : List α) (h : l ≠ []) :
    (pickMin lt none l).isSome = true := by
  match l with
  | [] => exact absurd rfl h
  | x :: xs => simpa [pickMin] using pickMin_some_isSome lt xs x

theorem pickMin_mem {α : Type} (lt : α → α → Bool) :
    ∀ (l : List α) (acc : Option α) (r : α),
      pickMin lt acc l = some r → acc = some r ∨ r ∈ l := by
  intro l
  induction l with
  | nil =>
    intro acc r h
    cases acc with
    | none => exact absurd h (by simp [pickMin])
    | some a => exact Or.inl (by simpa [pickMin] using h)
  | cons x xs ih =>
    intro acc r h
    cases acc with
    | none =>
      rcases ih (some x) r (by simpa [pickMin] using h) with h1 | h2
      · exact Or.inr (by simp [Option.some_inj.mp h1])
      · exact Or.inr (List.mem_cons_of_mem _ h2)
    | some a =>
      rcases ih (some (if lt x a then x else a)) r (by simpa [pickMin] using h) with h1 | h2
      · by_cases hc : lt x a = true
        · rw [if_pos hc] at h1
          exact Or.inr (by simp [Option.some_inj.mp h1])
        · rw [if_neg hc] at h1
          exact Or.inl h1
      · exact Or.inr (List.mem_cons_of_mem _ h2)

theorem pickMin_ruleLt_min :
    ∀ (l : List MappingRule) (acc : Option MappingRule) (r : MappingRule),
      pickMin ruleLt acc l = some r →
      (∀ a, acc = some a → rulePrec r a) ∧ (∀ x ∈ l, rulePrec r x) := by
  intro l
  induction l with
  | nil =>
    intro acc r h
    cases acc with
    | none => exact absurd h (by simp [pickMin])
    | some a =>
      have ha : a = r := by simpa [pickMin] using h
      subst ha
      constructor
      · intro a' ha'
        cases ha'
        unfold rulePrec
        omega
      · intro x hx
        exact absurd hx (List.not_mem_nil x)
  | cons x xs ih =>
    intro acc r h
    cases acc with
    | none =>
      obtain ⟨hacc, hxs⟩ := ih (some x) r (by simpa [pickMin] using h)
      have hx : rulePrec r x := hacc x rfl
      constructor
      · intro a ha
        cases ha
      · intro y hy
        rcases List.mem_cons.mp hy with rfl | hy'
        · exact hx
        · exact hxs y hy'
    | some a =>
      by_cases hc : ruleLt x a = true
      · obtain ⟨hacc, hxs⟩ := ih (some x) r (by simpa [pickMin, hc] using h)
        have hx : rulePrec r x := hacc x rfl
        have hxa := (ruleLt_iff x a).mp hc
        have hra : rulePrec r a := by unfold rulePrec at hx ⊢; omega
        constructor
        · intro a' ha'
          cases ha'
          exact hra
        · intro y hy
          rcases List.mem_cons.mp hy with rfl | hy'
          · exact hx
          · exact hxs y hy'
      · have hcf : ruleLt x a = false := by revert hc; cases ruleLt x a <;> simp
        obtain ⟨hacc, hxs⟩ := ih (some a) r (by simpa [pickMin, hcf] using h)
        have hra : rulePrec r a := hacc a rfl
        have hxa : ¬(x.priority < a.priority ∨ (x.priority = a.priority ∧ x.id < a.id)) := by
          intro hcontra
          rw [(ruleLt_iff x a).mpr hcontra] at hcf
          cases hcf
        have hx : rulePrec r x := by unfold rulePrec at hra ⊢; omega
        constructor
        · intro a' ha'
          cases ha'
          exact hra
        · intro y hy
          rcases List.mem_cons.mp hy with rfl | hy'
          · exact hx
          · exact hxs y hy'

theorem findExactRule_spec (rules : List MappingRule) (key : String) (code : Int)
    (r : MappingRule) (h : findExactRule rules key code = some r) :
    r ∈ rules ∧ r.sourceKey = key ∧ r.sourceTypeID = code ∧ r.isActive = true ∧
    ∀ x ∈ rules, x.sourceKey = key → x.sourceTypeID = code → x.isActive = true → rulePrec r x := by
  unfold findExactRule at h
  have hmem := pickMin_mem ruleLt _ none r h
  have hmin := pickMin_ruleLt_min _ none r h
  rcases hmem with h1 | h2
  · cases h1
  · obtain ⟨hmemr, hp⟩ := List.mem_filter.mp h2
    simp only [Bool.and_eq_true, beq_iff_eq] at hp
    refine ⟨hmemr, hp.1.1, hp.1.2, hp.2, ?_⟩
    intro x hx hk hc' ha
    exact hmin.2 x (List.mem_filter.mpr ⟨hx, by simp [hk, hc', ha]⟩)

theorem findExactRule_isSome (rules : List MappingRule) (key : String) (code : Int)
    (r1 : MappingRule) (h1 : r1 ∈ rules) (hk : r1.sourceKey = key) (hc : r1.sourceTypeID = code)
    (ha : r1.isActive = true) : (findExactRule rules key code).isSome = true := by
  unfold findExactRule
  apply pickMin_ne_nil_isSome
  intro hnil
  have hmem : r1 ∈ rules.filter
      (fun r => r.sourceKey == key && r.sourceTypeID == code && r.isActive) :=
    List.mem_filter.mpr ⟨h1, by simp [hk, hc, ha]⟩
  rw [hnil] at hmem
  cases hmem

theorem mapCategoryEnhanced_exact_hit (cfg : Option CategoryMappingConfig) (d : DB) (now : Nat)
    (key : String) (code : Int) (name : String) (r : MappingRule)
    (h : findExactRule d.rules key code = some r) :
    mapCategoryEnhanced cfg (some d) now key code name =
      ((r.standardID, r.standardSubID,
        (getStandardCategoryNames cfg r.standardID r.standardSubID).1,
        (getStandardCategoryNames cfg r.standardID r.standardSubID).2), some d) := by
  have hred : mapCategoryEnhanced cfg (some d) now key code name =
      (match findExactRule d.rules key code with
       | some rule =>
         ((rule.standardID, rule.standardSubID,
           (getStandardCategoryNames cfg rule.standardID rule.standardSubID).1,
           (getStandardCategoryNames cfg rule.standardID rule.standardSubID).2), some d)
       | none => resolveAfterExact cfg (some d) now key code name) := rfl
  rw [hred, h]

theorem charsContains_nil : ∀ (hay : List Char), charsContains hay [] = true := by
  intro hay
  cases hay <;> rfl

theorem goContains_empty (s : String) : goContains s "" = true :=
  charsContains_nil s.data

theorem findFirstFuzzy_of_no_active (rules : List FuzzyMatchRule)
    (h : rules.filter (fun r => r.isActive) = []) : findFirstFuzzy rules = zeroFuzzyRule := by
  unfold findFirstFuzzy
  rw [h]
  rfl

theorem fuzzyHit_empty_pattern (name : String) : fuzzyHit "" name = some "" := by
  unfold fuzzyHit
  have hsplit : goSplitPipe "" = [""] := rfl
  rw [hsplit]
  simp [List.find?, goContains_empty]

theorem findUnmappedFirst_mem (l : List UnmappedCategory) (key : String) (code : Int)
    (u : UnmappedCategory) (h : findUnmappedFirst l key code = some u) : u ∈ l := by
  unfold findUnmappedFirst at h
  rcases pickMin_mem unmappedLt _ none u h with h1 | h2
  · cases h1
  · exact (List.mem_filter.mp h2).1

theorem addMappingRule_fresh (d : DB) (rule : MappingRule)
    (h : ∀ r ∈ d.rules, ¬(r.sourceKey = rule.sourceKey ∧ r.sourceTypeID = rule.sourceTypeID)) :
    addMappingRule d rule =
      { d with rules := d.rules ++ [{ rule with id := d.nextRuleId }], nextRuleId := d.nextRuleId + 1 } := by
  unfold addMappingRule
  have hf : d.rules.filter
      (fun r => r.sourceKey == rule.sourceKey && r.sourceTypeID == rule.sourceTypeID) = [] := by
    rw [List.filter_eq_nil_iff]
    intro r hr
    simp only [Bool.and_eq_true, beq_iff_eq, not_and]
    intro hk hc
    exact absurd ⟨hk, hc⟩ (h r hr)
  rw [hf]
  rfl

/-- C1: for every (sourceKey, sourceTypeID) with an active exact rule in the
rule repository, `MapCategoryEnhanced` returns the selected exact rule's
(StandardID, StandardSubID) from the exact-rule step and hands the database
back unchanged — the legacy config lookup, the fuzzy matcher, the default and
the discovery recorder are never reached, whatever legacy mappings or fuzzy
rules are present in `cfg` and `d`. -/
theorem claimC1_exact_rule_short_circuits (cfg : Option CategoryMappingConfig) (d : DB)
    (now : Nat) (key : String) (code : Int) (name : String) (r1 : MappingRule)
    (h1 : r1 ∈ d.rules) (hk : r1.sourceKey = key) (hc : r1.sourceTypeID = code)
    (ha : r1.isActive = true) :
    ∃ r, findExactRule d.rules key code = some r ∧
      mapCategoryEnhanced cfg (some d) now key code name =
        ((r.standardID, r.standardSubID,
          (getStandardCategoryNames cfg r.standardID r.standardSubID).1,
          (getStandardCategoryNames cfg r.standardID r.standardSubID).2), some d) := by
  have hs := findExactRule_isSome d.rules key code r1 h1 hk hc ha
  obtain ⟨r, hr⟩ := Option.isSome_iff_exists.mp hs
  exact ⟨r, hr, mapCategoryEnhanced_exact_hit cfg d now key code name r hr⟩

/-- C1 witness: with the single active rule `ruleW1` for ("k", 5), the
resolver returns its target (7, none) from the exact-rule step. -/
theorem claimC1_witness :
    ∃ r, findExactRule dbW1.rules "k" 5 = some r ∧
      mapCategoryEnhanced none (some dbW1) 0 "k" 5 "n" =
        ((r.standardID, r.standardSubID,
          (getStandardCategoryNames none r.standardID r.standardSubID).1,
          (getStandardCategoryNames none r.standardID r.standardSubID).2), some dbW1) :=
  claimC1_exact_rule_short_circuits none dbW1 0 "k" 5 "n" ruleW1 (by decide) rfl rfl rfl

/-- C3: whenever active exact rules exist for a (sourceKey, sourceTypeID) —
in particular when two or more duplicates exist — `MapCategoryEnhanced`
selects the active matching rule minimal in (priority, id): lowest priority
value first, ties broken by smallest id; the resolver is a pure function of
the repository state, so repeated calls on the same state return the same
rule's target. -/
theorem claimC3_lowest_priority_smallest_id (cfg : Option CategoryMappingConfig) (d : DB)
    (now : Nat) (key : String) (code : Int) (name : String) (r1 : MappingRule)
    (h1 : r1 ∈ d.rules) (hk : r1.sourceKey = key) (hc : r1.sourceTypeID = code)
    (ha : r1.isActive = true) :
    ∃ r, findExactRule d.rules key code = some r ∧ r ∈ d.rules ∧ r.sourceKey = key ∧
      r.sourceTypeID = code ∧ r.isActive = true ∧
      (∀ x ∈ d.rules, x.sourceKey = key → x.sourceTypeID = code → x.isActive = true →
        r.priority < x.priority ∨ (r.priority = x.priority ∧ r.id ≤ x.id)) ∧
      (mapCategoryEnhanced cfg (some d) now key code name).1.1 = r.standardID ∧
      (mapCategoryEnhanced cfg (some d) now key code name).1.2.1 = r.standardSubID := by
  have hs := findExactRule_isSome d.rules key code r1 h1 hk hc ha
  obtain ⟨r, hr⟩ := Option.isSome_iff_exists.mp hs
  obtain ⟨hmem, hk', hc', ha', hmin⟩ := findExactRule_spec d.rules key code r hr
  have hhit := mapCategoryEnhanced_exact_hit cfg d now key code name r hr
  refine ⟨r, hr, hmem, hk', hc', ha', fun x hx a b c => hmin x hx a b c, ?_, ?_⟩
  · rw [hhit]
  · rw [hhit]

/-- C3 witness: of two active duplicates for ("k", 5) with priorities 100 and
50, the priority-50 rule (id 2) is selected and its target (8, 201) returned. -/
theorem claimC3_witness :
    ∃ r, findExactRule dbW3.rules "k" 5 = some r ∧ r ∈ dbW3.rules ∧ r.sourceKey = "k" ∧
      r.sourceTypeID = 5 ∧ r.isActive = true ∧
      (∀ x ∈ dbW3.rules, x.sourceKey = "k" → x.sourceTypeID = 5 → x.isActive = true →
        r.priority < x.priority ∨ (r.priority = x.priority ∧ r.id ≤ x.id)) ∧
      (mapCategoryEnhanced none (some dbW3) 0 "k" 5 "n").1.1 = r.standardID ∧
      (mapCategoryEnhanced none (some dbW3) 0 "k" 5 "n").1.2.1 = r.standardSubID :=
  claimC3_lowest_priority_smallest_id none dbW3 0 "k" 5 "n" ruleW3a (by decide) rfl rfl rfl

theorem fuzzyHit_isSome_iff (pattern name : String) :
    (fuzzyHit pattern name).isSome = true ↔
      ∃ kw ∈ goSplitPipe pattern, goContains name kw = true := by
  unfold fuzzyHit
  simp [List.find?_isSome]

/-- C2 counterexample: two active fuzzy rules are present and the display name
"exciting action film" contains the token "action" of the active rule
`ruleActionC2`, yet the fuzzy step matches nothing — only the first rule in
ascending priority order (`ruleHorrorC2`, whose token does not occur) is ever
consulted — and the full resolver falls through to the default 99.  This
refutes the claim that every active fuzzy rule is scanned. -/
theorem claimC2_counterexample :
    ruleActionC2.isActive = true ∧
    "action" ∈ goSplitPipe ruleActionC2.pattern ∧
    goContains "exciting action film" "action" = true ∧
    fuzzyStep [ruleHorrorC2, ruleActionC2] "exciting action film" = none ∧
    (mapCategoryEnhanced none (some dbC2) 0 "k" 1 "exciting action film").1.1 = 99 := by
  decide

/-- C2 (amended): the fuzzy-match step consults only the single first active
fuzzy rule in ascending (priority, id) order — the query scans one row — and
classifies by that rule exactly when one of its '|'-separated tokens is a
case-sensitive substring of the display name; a name containing no token of
that first rule matches nothing, even when a later active rule's token occurs.
The spec's example holds for a lone rule "action|wuxia": "exciting action
film" and "wuxia theater" match, "romance film" does not. -/
theorem claimC2_single_first_rule_token_match :
    (∀ (rules : List FuzzyMatchRule) (name : String),
      (∀ r, fuzzyStep rules name = some r → r = findFirstFuzzy rules) ∧
      (fuzzyStep rules name = some (findFirstFuzzy rules) ↔
        ∃ kw ∈ goSplitPipe (findFirstFuzzy rules).pattern, goContains name kw = true) ∧
      (fuzzyStep rules name = none ↔
        ∀ kw ∈ goSplitPipe (findFirstFuzzy rules).pattern, goContains name kw = false)) ∧
    fuzzyStep [ruleActionC2] "exciting action film" = some ruleActionC2 ∧
    fuzzyStep [ruleActionC2] "wuxia theater" = some ruleActionC2 ∧
    fuzzyStep [ruleActionC2] "romance film" = none := by
  refine ⟨?_, by decide, by decide, by decide⟩
  intro rules name
  refine ⟨?_, ?_, ?_⟩
  · intro r h
    by_cases hc : (fuzzyHit (findFirstFuzzy rules).pattern name).isSome = true
    · simp only [fuzzyStep, hc, if_true] at h
      exact (Option.some_inj.mp h).symm
    · simp only [fuzzyStep, hc, if_false] at h
      cases h
  · by_cases hc : (fuzzyHit (findFirstFuzzy rules).pattern name).isSome = true
    · constructor
      · intro _
        exact (fuzzyHit_isSome_iff _ _).mp hc
      · intro _
        simp [fuzzyStep, hc]
    · constructor
      · intro h
        exact absurd h (by simp [fuzzyStep, hc])
      · intro hex
        exact absurd ((fuzzyHit_isSome_iff _ _).mpr hex) hc
  · by_cases hc : (fuzzyHit (findFirstFuzzy rules).pattern name).isSome = true
    · constructor
      · intro h
        exact absurd h (by simp [fuzzyStep, hc])
      · intro hall
        obtain ⟨kw, hm, hp⟩ := (fuzzyHit_isSome_iff _ _).mp hc
        rw [hall kw hm] at hp
        cases hp
    · constructor
      · intro _ kw hm
        by_contra hne
        have hp : goContains name kw = true := by
          revert hne
          cases goContains name kw <;> simp
        exact hc ((fuzzyHit_isSome_iff _ _).mpr ⟨kw, hm, hp⟩)
      · intro _
        simp [fuzzyStep, hc]

/-- C2 witness: the amended characterization applied to the lone-rule state at
the display name "wuxia theater", discharging the existence side with the
token "wuxia". -/
theorem claimC2_witness :
    fuzzyStep [ruleActionC2] "wuxia theater" = some (findFirstFuzzy [ruleActionC2]) :=
  ((claimC2_single_first_rule_token_match.1 [ruleActionC2] "wuxia theater").2.1).mpr
    ⟨"wuxia", by decide, by decide⟩

theorem applyUnmapped_eq (d : DB) (now : Nat) (fail : Bool) (uid : Nat) (u : UnmappedCategory)
    (sid : Int) (sub : Option Int) (hu : findUnmappedById d.unmapped uid = some u) :
    applyUnmappedCategoryMapping d now fail uid sid sub =
      (if fail then (some "更新状态失败", addMappingRule d (promoteRule u sid sub))
       else (none,
         updateUnmappedMapped (addMappingRule d (promoteRule u sid sub)) now u.id sid sub)) := by
  unfold applyUnmappedCategoryMapping
  rw [hu]

theorem updateUnmappedMapped_mem (d : DB) (now : Nat) (u : UnmappedCategory) (sid : Int)
    (sub : Option Int) (hm : u ∈ d.unmapped) :
    { u with status := "mapped", mappedID := some sid, mappedSubID := sub, lastSeenAt := now }
      ∈ (updateUnmappedMapped d now u.id sid sub).unmapped := by
  unfold updateUnmappedMapped
  have hmap := List.mem_map_of_mem
    (fun v : UnmappedCategory =>
      if v.id == u.id then
        { v with status := "mapped", mappedID := some sid, mappedSubID := sub, lastSeenAt := now }
      else v) hm
  simpa using hmap

/-- C4 counterexample: starting from a single pending record and no rules,
Promote with a failing status update reports an error, yet the freshly written
active exact rule for the record's (source, code) remains in the repository
and the record is still unmapped — the operation is not atomic, refuting
"if the status update fails after the rule write, no new active rule remains". -/
theorem claimC4_counterexample :
    (applyUnmappedCategoryMapping dbC4 9 true 1 2 (some 205)).1.isSome = true ∧
    ((applyUnmappedCategoryMapping dbC4 9 true 1 2 (some 205)).2.rules.any
      fun r => r.isActive && r.sourceKey == "xlzy" && r.sourceTypeID == 17) = true ∧
    ((applyUnmappedCategoryMapping dbC4 9 true 1 2 (some 205)).2.unmapped.any
      fun v => v.status == "mapped") = false := by
  decide

/-- C4 (amended): `ApplyUnmappedCategoryMapping` performs the rule upsert and
the record-status update as two separate autocommitted writes, with no
transaction.  For a record with no pre-existing rule for its (source, code):
when both writes succeed, the repository holds a fresh active exact rule with
the requested target and the record's status is mapped with the target stored;
when the status update fails after the rule write, the new active rule
nevertheless remains and the discovery records are left unchanged. -/
theorem claimC4_promote_two_separate_writes (d : DB) (now : Nat) (uid : Nat)
    (u : UnmappedCategory) (sid : Int) (sub : Option Int)
    (hu : findUnmappedById d.unmapped uid = some u)
    (hnorule : ∀ r ∈ d.rules, ¬(r.sourceKey = u.sourceKey ∧ r.sourceTypeID = u.sourceTypeID)) :
    ((applyUnmappedCategoryMapping d now false uid sid sub).1 = none ∧
     (∃ r ∈ (applyUnmappedCategoryMapping d now false uid sid sub).2.rules,
        r.isActive = true ∧ r.sourceKey = u.sourceKey ∧ r.sourceTypeID = u.sourceTypeID ∧
        r.standardID = sid ∧ r.standardSubID = sub) ∧
     (∃ v ∈ (applyUnmappedCategoryMapping d now false uid sid sub).2.unmapped,
        v.id = u.id ∧ v.status = "mapped" ∧ v.mappedID = some sid ∧ v.mappedSubID = sub)) ∧
    ((applyUnmappedCategoryMapping d now true uid sid sub).1.isSome = true ∧
     (∃ r ∈ (applyUnmappedCategoryMapping d now true uid sid sub).2.rules,
        r.isActive = true ∧ r.sourceKey = u.sourceKey ∧ r.sourceTypeID = u.sourceTypeID ∧
        r.standardID = sid ∧ r.standardSubID = sub) ∧
     (applyUnmappedCategoryMapping d now true uid sid sub).2.unmapped = d.unmapped) := by
  have hadd : addMappingRule d (promoteRule u sid sub) =
      { d with rules := d.rules ++ [{ promoteRule u sid sub with id := d.nextRuleId }], nextRuleId := d.nextRuleId + 1 } :=
    addMappingRule_fresh d _ (by
      intro r hr
      simpa [promoteRule] using hnorule r hr)
  have humem : u ∈ d.unmapped := by
    unfold findUnmappedById at hu
    exact List.mem_of_find?_eq_some hu
  have hfalse := applyUnmapped_eq d now false uid u sid sub hu
  have htrue := applyUnmapped_eq d now true uid u sid sub hu
  simp only [Bool.false_eq_true, if_false, if_true] at hfalse htrue
  constructor
  · refine ⟨by rw [hfalse], ?_, ?_⟩
    · refine ⟨{ promoteRule u sid sub with id := d.nextRuleId }, ?_, ?_⟩
      · rw [hfalse]
        unfold updateUnmappedMapped
        rw [hadd]
        simp
      · simp [promoteRule]
    · refine ⟨{ u with status := "mapped", mappedID := some sid, mappedSubID := sub, lastSeenAt := now }, ?_, by simp⟩
      rw [hfalse]
      have humem' : u ∈ (addMappingRule d (promoteRule u sid sub)).unmapped := by
        rw [hadd]
        exact humem
      exact updateUnmappedMapped_mem _ now u sid sub humem'
  · refine ⟨by rw [htrue]; rfl, ?_, ?_⟩
    · refine ⟨{ promoteRule u sid sub with id := d.nextRuleId }, ?_, ?_⟩
      · rw [htrue]
        show _ ∈ (addMappingRule d (promoteRule u sid sub)).rules
        rw [hadd]
        simp
      · simp [promoteRule]
    · rw [htrue]
      show (addMappingRule d (promoteRule u sid sub)).unmapped = d.unmapped
      rw [hadd]

/-- C4 witness: the amended theorem applied to the concrete one-record state;
projected here is the failure branch's frame fact that the discovery records
are unchanged after the failed status update. -/
theorem claimC4_witness :
    (applyUnmappedCategoryMapping dbC4 9 true 1 2 (some 205)).2.unmapped = dbC4.unmapped :=
  (claimC4_promote_two_separate_writes dbC4 9 1 unmappedC4 2 (some 205) (by decide)
    (by decide)).2.2.2

/-- C5 counterexample: a record whose status is "mapped" is NOT left unchanged
by a further Observe: its count is incremented from 3 to 4 and its last-seen
refreshed from 10 to 100, refuting the claimed no-op. -/
theorem claimC5_counterexample :
    unmappedC5.status = "mapped" ∧
    (dbC5.unmapped.map fun v => (v.videoCount, v.lastSeenAt, v.status)) = [(3, 10, "mapped")] ∧
    ((recordUnmappedCategory dbC5 100 "k" 5 "n" none none).unmapped.map
      fun v => (v.videoCount, v.lastSeenAt, v.status)) = [(4, 100, "mapped")] := by
  decide

/-- C5 (amended): `recordUnmappedCategory` on an existing record updates it
regardless of its status — the count is incremented and the last-seen
timestamp refreshed (and suggestion fields overwritten when a suggestion is
supplied) even for mapped or ignored records; only the status field itself is
never modified by observation, and no new record is created. -/
theorem claimC5_observe_updates_any_status (d : DB) (now : Nat) (key : String) (code : Int)
    (name : String) (sug sugSub : Option Int) (u : UnmappedCategory)
    (hu : findUnmappedFirst d.unmapped key code = some u) :
    (recordUnmappedCategory d now key code name sug sugSub).unmapped.length =
      d.unmapped.length ∧
    ∃ v ∈ (recordUnmappedCategory d now key code name sug sugSub).unmapped,
      v.id = u.id ∧ v.status = u.status ∧ v.videoCount = u.videoCount + 1 ∧ v.lastSeenAt = now := by
  have humem : u ∈ d.unmapped := findUnmappedFirst_mem d.unmapped key code u hu
  have hred : recordUnmappedCategory d now key code name sug sugSub =
      { d with unmapped := d.unmapped.map fun v => if v.id == u.id then (if sug.isSome then { v with lastSeenAt := now, videoCount := v.videoCount + 1, suggestedID := sug, suggestedSubID := sugSub } else { v with lastSeenAt := now, videoCount := v.videoCount + 1 }) else v } := by
    unfold recordUnmappedCategory
    rw [hu]
  rw [hred]
  constructor
  · simp
  · by_cases hs : sug.isSome = true
    · refine ⟨{ u with lastSeenAt := now, videoCount := u.videoCount + 1, suggestedID := sug, suggestedSubID := sugSub }, ?_, by simp⟩
      have hmap := List.mem_map_of_mem
        (fun v : UnmappedCategory => if v.id == u.id then (if sug.isSome then { v with lastSeenAt := now, videoCount := v.videoCount + 1, suggestedID := sug, suggestedSubID := sugSub } else { v with lastSeenAt := now, videoCount := v.videoCount + 1 }) else v) humem
      simpa [hs] using hmap
    · refine ⟨{ u with lastSeenAt := now, videoCount := u.videoCount + 1 }, ?_, by simp⟩
      have hmap := List.mem_map_of_mem
        (fun v : UnmappedCategory => if v.id == u.id then (if sug.isSome then { v with lastSeenAt := now, videoCount := v.videoCount + 1, suggestedID := sug, suggestedSubID := sugSub } else { v with lastSeenAt := now, videoCount := v.videoCount + 1 }) else v) humem
      simpa [hs] using hmap

/-- C5 witness: the amended theorem applied to the concrete mapped record;
projected is the no-new-record fact. -/
theorem claimC5_witness :
    (recordUnmappedCategory dbC5 100 "k" 5 "n" none none).unmapped.length =
      dbC5.unmapped.length :=
  (claimC5_observe_updates_any_status dbC5 100 "k" 5 "n" none none unmappedC5 (by decide)).1

/-- C6: promoting the pending record (xlzy, 17) to target (2, 205) succeeds;
afterwards the repository holds exactly the active exact rule
(xlzy, 17) → (2, 205), the record's status is mapped with mapped_id = 2 and
mapped_sub_id = 205, and every subsequent resolution of ("xlzy", 17, name) —
for any display name — returns (2, 205) from the exact-rule step with the
database handed back unchanged (no discovery write). -/
theorem claimC6_promote_then_resolve :
    (applyUnmappedCategoryMapping dbC6 9 false 1 2 (some 205)).1 = none ∧
    ((applyUnmappedCategoryMapping dbC6 9 false 1 2 (some 205)).2.rules.map
      fun r => (r.sourceKey, r.sourceTypeID, r.standardID, r.standardSubID, r.isActive)) =
      [("xlzy", 17, 2, some 205, true)] ∧
    ((applyUnmappedCategoryMapping dbC6 9 false 1 2 (some 205)).2.unmapped.map
      fun v => (v.id, v.status, v.mappedID, v.mappedSubID)) =
      [(1, "mapped", some 2, some 205)] ∧
    ∀ name : String,
      mapCategoryEnhanced (some cfgC6)
          (some (applyUnmappedCategoryMapping dbC6 9 false 1 2 (some 205)).2) 0 "xlzy" 17 name =
        ((2, some 205, "电视剧", "韩剧"),
         some (applyUnmappedCategoryMapping dbC6 9 false 1 2 (some 205)).2) := by
  refine ⟨by decide, by decide, by decide, ?_⟩
  intro name
  rfl

/-- C7: the batch apply over three items, of which the middle one names the
non-existent record id 999, reports success_count = 2 and fail_count = 1 with
the per-item error message for the failed item, while both valid promotions
are applied: their rules are created active and both records become mapped —
the failing item neither blocks nor rolls back the others. -/
theorem claimC7_batch_failure_isolation :
    (batchApplyUnmappedCategories dbC7 9 itemsC7).1.successCount = 2 ∧
    (batchApplyUnmappedCategories dbC7 9 itemsC7).1.failCount = 1 ∧
    (batchApplyUnmappedCategories dbC7 9 itemsC7).1.errors = ["未映射分类ID 999 不存在"] ∧
    ((batchApplyUnmappedCategories dbC7 9 itemsC7).2.rules.map
      fun r => (r.sourceKey, r.sourceTypeID, r.standardID, r.standardSubID, r.isActive)) =
      [("hhzy", 3, 1, some 101, true), ("snzy", 8, 2, some 205, true)] ∧
    ((batchApplyUnmappedCategories dbC7 9 itemsC7).2.unmapped.map
      fun v => (v.id, v.status, v.mappedID, v.mappedSubID)) =
      [(1, "mapped", some 1, some 101), (2, "mapped", some 2, some 205)] := by
  decide

/-- C9 counterexample: the taxonomy knows only category "1", while the legacy
source mapping sends code 7 of source "src" to standard id 42; `MapCategory`
then returns the leftover default name "其他" — a substituted, non-empty name —
for the unknown id 42, refuting the claim that both paths return an empty
name. -/
theorem claimC9_counterexample :
    stdCatLookup (some cfgC9) 42 = none ∧
    mapCategory (some cfgC9) "src" 7 "未知类" = (42, none, "其他", "") ∧
    "其他" ≠ "" := by
  decide

/-- C9 (amended): on the repository-rule name path
(`getStandardCategoryNames`), an unknown standard id (or missing config)
yields empty names and an unknown sub id yields an empty sub name; on the
legacy path (`MapCategory`), a matched mapping whose target standard id is
absent from the taxonomy returns the default name "其他" as the standard name
(with an empty sub name) instead of an empty name. -/
theorem claimC9_unknown_id_names :
    (∀ (cfg : Option CategoryMappingConfig) (sid : Int) (sub : Option Int),
      stdCatLookup cfg sid = none → getStandardCategoryNames cfg sid sub = ("", "")) ∧
    (∀ (cfg : Option CategoryMappingConfig) (sid : Int) (stdCat : StandardCategory) (sub : Int),
      stdCatLookup cfg sid = some stdCat → subCatLookup stdCat sub = none →
      (getStandardCategoryNames cfg sid (some sub)).2 = "") ∧
    mapCategory (some cfgC9) "src" 7 "未知类" = (42, none, "其他", "") := by
  refine ⟨?_, ?_, by decide⟩
  · intro cfg sid sub h
    unfold getStandardCategoryNames
    rw [h]
  · intro cfg sid stdCat sub h1 h2
    unfold getStandardCategoryNames
    rw [h1]
    simp [h2]

/-- C9 witness: the amended theorem's first conjunct applied to a nil config
and id 5. -/
theorem claimC9_witness : getStandardCategoryNames none 5 none = ("", "") :=
  claimC9_unknown_id_names.1 none 5 none rfl

/-- C10: with zero active fuzzy rules in the database, any input that misses
the exact-rule step and the legacy config and carries a non-empty display name
is classified by the zero-valued fuzzy rule: its empty pattern splits into the
single empty token, the empty substring is contained in every name, so the
fuzzy branch fires with standard id 0 and empty names (0 is absent from the
taxonomy) instead of the default (99, "其他"), and a discovery record with
suggested id 0 is written. -/
theorem claimC10_zero_value_fuzzy_rule (cfg : Option CategoryMappingConfig) (d : DB) (now : Nat)
    (key : String) (code : Int) (name : String)
    (hexact : findExactRule d.rules key code = none)
    (hlegacy : (mapCategory cfg key code name).1 = 99)
    (hnofuzzy : d.fuzzyRules.filter (fun r => r.isActive) = [])
    (hname : name ≠ "")
    (hcfg0 : stdCatLookup cfg 0 = none) :
    mapCategoryEnhanced cfg (some d) now key code name =
      ((0, none, "", ""), some (recordUnmappedCategory d now key code name (some 0) none)) := by
  have hred : mapCategoryEnhanced cfg (some d) now key code name =
      (match findExactRule d.rules key code with
       | some rule =>
         ((rule.standardID, rule.standardSubID,
           (getStandardCategoryNames cfg rule.standardID rule.standardSubID).1,
           (getStandardCategoryNames cfg rule.standardID rule.standardSubID).2), some d)
       | none => resolveAfterExact cfg (some d) now key code name) := rfl
  rw [hred, hexact]
  unfold resolveAfterExact
  have hff := findFirstFuzzy_of_no_active d.fuzzyRules hnofuzzy
  have hnames : getStandardCategoryNames cfg 0 none = ("", "") := by
    unfold getStandardCategoryNames
    rw [hcfg0]
  simp [hlegacy, hname, hff, zeroFuzzyRule, fuzzyHit_empty_pattern, hnames]

/-- C10 witness: the empty database with no config: resolving ("k", 1, "x")
returns standard id 0 with empty names and records the suggestion 0. -/
theorem claimC10_witness :
    mapCategoryEnhanced none (some (⟨[], [], [], 1, 1⟩ : DB)) 0 "k" 1 "x" =
      ((0, none, "", ""),
       some (recordUnmappedCategory ⟨[], [], [], 1, 1⟩ 0 "k" 1 "x" (some 0) none)) :=
  claimC10_zero_value_fuzzy_rule none ⟨[], [], [], 1, 1⟩ 0 "k" 1 "x" rfl rfl rfl (by decide) rfl

/-- C8: `suggestMapping` is a pure function of the display name — the
embedding is stateless, so two invocations coincide — and its result follows
the three tiers exactly: an exact-name dictionary hit yields that entry with
confidence "high"; otherwise a keyword-containment hit on the lowercased name
yields that entry with confidence "medium"; otherwise the uncategorized bucket
(standard id 99) with confidence "low". -/
theorem claimC8_suggestion_pure_three_tiers (typeName : String) :
    suggestMapping typeName = suggestMapping typeName ∧
    ((∃ e, highConfidenceRules.find? (fun p => p.1 == goTrim typeName) = some e ∧
        suggestMapping typeName = e.2 ∧ e.2.confidence = "high") ∨
     (highConfidenceRules.find? (fun p => p.1 == goTrim typeName) = none ∧
      ∃ e, mediumConfidenceRules.find? (fun rule =>
          rule.1.any fun keyword => goContains (goToLower (goTrim typeName)) keyword) = some e ∧
        suggestMapping typeName = e.2 ∧ e.2.confidence = "medium") ∨
     (highConfidenceRules.find? (fun p => p.1 == goTrim typeName) = none ∧
      mediumConfidenceRules.find? (fun rule =>
          rule.1.any fun keyword => goContains (goToLower (goTrim typeName)) keyword) = none ∧
      suggestMapping typeName = lowConfidenceFallback ∧
      lowConfidenceFallback.standardID = some 99 ∧ lowConfidenceFallback.confidence = "low")) := by
  refine ⟨rfl, ?_⟩
  have hhigh : ∀ e ∈ highConfidenceRules, e.2.confidence = "high" := by decide
  have hmed : ∀ e ∈ mediumConfidenceRules, e.2.confidence = "medium" := by decide
  have hsug : suggestMapping typeName =
      (match (highConfidenceRules.find? fun e => e.1 == goTrim typeName).map (·.2) with
       | some s => s
       | none =>
         match (mediumConfidenceRules.find? fun rule =>
             rule.1.any fun keyword => goContains (goToLower (goTrim typeName)) keyword).map (·.2) with
         | some s => s
         | none => lowConfidenceFallback) := rfl
  cases h1 : highConfidenceRules.find? (fun p => p.1 == goTrim typeName) with
  | some e =>
    left
    refine ⟨e, rfl, ?_, hhigh e (List.mem_of_find?_eq_some h1)⟩
    rw [hsug, h1]
    rfl
  | none =>
    cases h2 : mediumConfidenceRules.find? (fun rule =>
        rule.1.any fun keyword => goContains (goToLower (goTrim typeName)) keyword) with
    | some e =>
      right
      left
      refine ⟨rfl, e, rfl, ?_, hmed e (List.mem_of_find?_eq_some h2)⟩
      rw [hsug, h1, h2]
      rfl
    | none =>
      right
      right
      refine ⟨rfl, rfl, ?_, rfl, rfl⟩
      rw [hsug, h1, h2]
      rfl
